import Mathlib

/-!
Verification development for the Bitcoin price-update pipeline of this
repository: the codec (`lib/encoding.ts`), the publisher
(`lib/price-fetcher.ts`), the scheduler (`scripts/start-price-fetcher.ts`)
and the subscriber hook (`useBTCPrice`).

Modelling conventions:
- JavaScript big-integers and unsigned word values are `Nat` with explicit
  bounds (`< 2 ^ 256`, `< 2 ^ 64`, `< 2 ^ 160`) where overflow matters.
- A 20-byte address is modelled by its 160-bit numeric value; its canonical
  string form is lowercase `0x` hex.  viem's EIP-55 checksum casing of
  decoded addresses is abstracted away: an address is identified with its
  byte content, as in the spec's data model ("20-byte address").
- Fallible code returns `Except String` / `Option`; thrown JS errors are
  `.error` values (the source rethrows after logging, so catch+rethrow is
  the identity on outcomes).
-/

namespace PriceTracker

/-- Dynamic JavaScript values as far as `decodePriceUpdate` inspects them:
strings, non-negative integral numbers, bigints, arrays, objects with a
`value` field (the SDK wrapper), and any other object/primitive
(`vother`).  Out of the modelled scope (documented simplifications, none
reachable by any claim below): fractional numbers, objects carrying
`_hex`/`toHexString` fields, and JS array-to-string coercion inside
`BigInt(...)`. -/
inductive JSVal where
  | vstr : String → JSVal
  | vnum : Nat → JSVal
  | vbig : Nat → JSVal
  | varr : List JSVal → JSVal
  | vwrap : JSVal → JSVal
  | vother : JSVal

/-- The record type of `lib/encoding.ts` (`PriceUpdate`): price in cents,
unix timestamp, updater address (modelled as its 160-bit value). -/
structure PriceUpdate where
  price : Nat
  timestamp : Nat
  updater : Nat
deriving DecidableEq

/-- What `decodePriceUpdate` actually returns at runtime: price and
timestamp are bigints (`Nat`), while the updater field is whatever JS
value `extractAddress` produced (a string on the intended paths, but the
source casts anything through unchanged). -/
structure DecodedRecord where
  price : Nat
  timestamp : Nat
  updater : JSVal

/-- Hex digit character for a value `< 16` (lowercase, as produced by hex
printing of byte strings). -/
def natToHexChar (d : Nat) : Char :=
  if d < 10 then Char.ofNat (48 + d) else Char.ofNat (87 + d)

/-- Parse one hex character (accepts both cases). -/
def hexCharToNat (c : Char) : Option Nat :=
  if 48 ≤ c.toNat && c.toNat ≤ 57 then some (c.toNat - 48)
  else if 97 ≤ c.toNat && c.toNat ≤ 102 then some (c.toNat - 87)
  else if 65 ≤ c.toNat && c.toNat ≤ 70 then some (c.toNat - 55)
  else none

/-- Two hex characters for one byte. -/
def byteToHexChars (b : Nat) : List Char :=
  [natToHexChar (b / 16), natToHexChar (b % 16)]

/-- Hex character string of a byte list. -/
def bytesToHexChars (bs : List Nat) : List Char :=
  bs.flatMap byteToHexChars

/-- Parse pairs of hex characters into bytes; `none` on odd length or a
non-hex character (viem raises on malformed hex input). -/
def hexCharsToBytes : List Char → Option (List Nat)
  | [] => some []
  | [_] => none
  | c1 :: c2 :: rest =>
    match hexCharToNat c1, hexCharToNat c2, hexCharsToBytes rest with
    | some h, some l, some bs => some ((16 * h + l) :: bs)
    | _, _, _ => none

/-- Big-endian byte list of width `w` for `n` (truncates to `n % 256 ^ w`,
as ABI padding of an in-range value). -/
def natToBeBytes : Nat → Nat → List Nat
  | 0, _ => []
  | w + 1, n => natToBeBytes w (n / 256) ++ [n % 256]

/-- Read a big-endian byte list as a number. -/
def beBytesToNat (bs : List Nat) : Nat :=
  bs.foldl (fun a b => 256 * a + b) 0

/-- Does the string start with `0x` (the check `firstItem.startsWith('0x')`
of `decodePriceUpdate`)? -/
def strStartsWith0x (s : String) : Bool :=
  match s.toList with
  | ('0') :: ('x') :: _ => true
  | _ => false

/-- Bytes of a `0x`-prefixed hex string, `none` if malformed. -/
def hexStrToBytes (s : String) : Option (List Nat) :=
  match s.toList with
  | ('0') :: ('x') :: rest => hexCharsToBytes rest
  | _ => none

/-- Canonical `0x` hex string of a 20-byte address value. -/
def addrHexString (a : Nat) : String :=
  String.mk (('0') :: ('x') :: bytesToHexChars (natToBeBytes 20 a))

/-- The range conditions under which viem's
`encodeAbiParameters('uint256, uint64, address')` accepts the record
(out-of-range integers and invalid addresses raise). -/
def validRecord (r : PriceUpdate) : Prop :=
  r.price < 2 ^ 256 ∧ r.timestamp < 2 ^ 64 ∧ r.updater < 2 ^ 160

instance (r : PriceUpdate) : Decidable (validRecord r) := by
  unfold validRecord; infer_instance

/-- The 96 bytes of the ABI-encoded tuple: three 32-byte big-endian words
(price, timestamp, address each left-padded). -/
def rawEncodeBytes (r : PriceUpdate) : List Nat :=
  natToBeBytes 32 r.price ++ natToBeBytes 32 r.timestamp ++ natToBeBytes 32 r.updater

/-- Hex string of the encoded tuple. -/
def rawEncodeHex (r : PriceUpdate) : String :=
  String.mk (('0') :: ('x') :: bytesToHexChars (rawEncodeBytes r))

/-- `encodePriceUpdate` of `lib/encoding.ts`: ABI-encode
`(uint256, uint64, address)`; viem raises (here: `none`) when a field is
out of range. -/
def encodePriceUpdate (r : PriceUpdate) : Option String :=
  if validRecord r then some (rawEncodeHex r) else none

/-- viem's `decodeAbiParameters('uint256, uint64, address')` on a hex
string: needs at least 96 bytes, reads three consecutive 32-byte words;
the `uint64` word is returned unmasked (viem performs no range check on
decode) and the address is the low 20 bytes of its word. -/
def decodeHexPriceUpdate (s : String) : Except String DecodedRecord :=
  match hexStrToBytes s with
  | none => .error ("InvalidHexError")
  | some bs =>
    if bs.length < 96 then .error ("AbiDecodingDataSizeTooSmallError")
    else .ok { price := beBytesToNat (bs.take 32)
             , timestamp := beBytesToNat ((bs.drop 32).take 32)
             , updater := .vstr (addrHexString (beBytesToNat ((bs.drop 64).take 32) % 2 ^ 160)) }

/-- Decimal value of a digit character list. -/
def decimalValue (cs : List Char) : Nat :=
  cs.foldl (fun a c => 10 * a + (c.toNat - 48)) 0

/-- The `toBigInt` helper inside `decodePriceUpdate`: bigint and number
pass through, strings go through `BigInt(s)` (modelled for decimal-digit
strings, with `BigInt('') = 0`), `{value: ...}` wrappers recurse; other
values raise. -/
def toBigInt : JSVal → Option Nat
  | .vbig n => some n
  | .vnum n => some n
  | .vstr s => if s.toList.all Char.isDigit then some (decimalValue s.toList) else none
  | .vwrap v => toBigInt v
  | .varr _ => none
  | .vother => none

/-- The `extractAddress` helper: strings pass through, `{value: ...}`
wrappers recurse, anything else is returned unchanged (a TS type cast with
no runtime conversion). -/
def extractAddress : JSVal → JSVal
  | .vwrap v => extractAddress v
  | v => v

/-- The unwrap loop of `decodePriceUpdate` applied to the first array
element (which the source has already checked to be an object with a
`value` field): follow `.value` while it is an object with a `value` field
whose `value` is not an array; the result is `current.value`, which must be
an array to proceed (otherwise the source falls through and raises). -/
def unwrapToValues : JSVal → Option (List JSVal)
  | .vwrap w =>
    match w with
    | .varr l => some l
    | .vwrap _ => unwrapToValues w
    | _ => none
  | _ => none

/-- `decodePriceUpdate` of `lib/encoding.ts` over dynamic input. -/
def decodePriceUpdate (data : JSVal) : Except String DecodedRecord :=
  match data with
  | .varr (firstItem :: _) =>
    match firstItem with
    | .vstr s =>
      if strStartsWith0x s then decodeHexPriceUpdate s
      else .error ("Unsupported data format")
    | .vwrap w =>
      match unwrapToValues (.vwrap w) with
      | some values =>
        match values with
        | v0 :: v1 :: v2 :: _ =>
          match toBigInt v0, toBigInt v1 with
          | some p, some t => .ok { price := p, timestamp := t, updater := extractAddress v2 }
          | _, _ => .error ("Cannot convert to BigInt")
        | _ => .error ("Unsupported data format")
      | none => .error ("Unsupported data format")
    | _ => .error ("Unsupported data format")
  | .vstr s =>
    if strStartsWith0x s then decodeHexPriceUpdate s
    else .error ("Unsupported data format")
  | _ => .error ("Unsupported data format")

/-- The image of a source record in the runtime record type: decoded
addresses are address strings. -/
def recToDecoded (r : PriceUpdate) : DecodedRecord :=
  { price := r.price, timestamp := r.timestamp, updater := .vstr (addrHexString r.updater) }

/-- Decimal digit character. -/
def digitChar (d : Nat) : Char :=
  if d = 0 then ('0') else if d = 1 then ('1') else if d = 2 then ('2')
  else if d = 3 then ('3') else if d = 4 then ('4') else if d = 5 then ('5')
  else if d = 6 then ('6') else if d = 7 then ('7') else if d = 8 then ('8')
  else ('9')

/-- Canonical decimal digit list of a number (the form `String(n)` /
`n.toString()` produces in JS). -/
def natToDecChars (n : Nat) : List Char :=
  if n < 10 then [digitChar n]
  else natToDecChars (n / 10) ++ [digitChar (n % 10)]
termination_by n
decreasing_by exact Nat.div_lt_self (by omega) (by omega)

/-- Decimal string of a number. -/
def decStr (n : Nat) : String := String.mk (natToDecChars n)

/-- The leaf shapes in which a numeric field may arrive from the SDK read:
native bigint, JS number, decimal string, or any of these wrapped in
`{value: ...}` objects. -/
inductive RepBig (n : Nat) : JSVal → Prop
  | big : RepBig n (.vbig n)
  | num : RepBig n (.vnum n)
  | str : RepBig n (.vstr (decStr n))
  | wrap {v : JSVal} : RepBig n v → RepBig n (.vwrap v)

/-- The leaf shapes in which the address field decodes to the address
string: the string itself, possibly wrapped in `{value: ...}` objects. -/
inductive RepAddr (a : Nat) : JSVal → Prop
  | str : RepAddr a (.vstr (addrHexString a))
  | wrap {v : JSVal} : RepAddr a v → RepAddr a (.vwrap v)

/-! ## Scheduler (`scripts/start-price-fetcher.ts`)

The scheduler is two module-level variables (`isFetching`,
`retryTimeout`) driven by `fetchWithRetry`.  The event loop is modelled as
a transition system; each transition is one synchronous segment of JS
execution (code between `await` suspension points runs atomically).
`retryTimers` counts pending `setTimeout` retry callbacks, `running`
counts `fetchAndPublishPrice` invocations in flight, and `started` counts
pipeline runs ever started. -/

structure SchedState where
  isFetching : Bool
  retryTimers : Nat
  running : Nat
  started : Nat
deriving DecidableEq

/-- The state at service start: not fetching, no retry pending. -/
def schedInit : SchedState := { isFetching := false, retryTimers := 0, running := 0, started := 0 }

/-- A cron tick (or the initial call in `main`): `fetchWithRetry` up to its
`await` — skip if `isFetching`, otherwise set the flag and start a run. -/
def tickStep (s : SchedState) : SchedState :=
  if s.isFetching then s
  else { s with isFetching := true, running := s.running + 1, started := s.started + 1 }

/-- A run completing with outcome `success`: the continuation of
`fetchWithRetry` after its `await`.  On failure with no retry pending, one
retry timeout is armed; the `finally` block clears `isFetching` only when
no retry is pending. -/
def finishStep (success : Bool) (s : SchedState) : SchedState :=
  let rt := if success = false && s.retryTimers == 0 then s.retryTimers + 1 else s.retryTimers
  { isFetching := if rt == 0 then false else s.isFetching
  , retryTimers := rt
  , running := s.running - 1
  , started := s.started }

/-- A pending retry timeout firing: it clears `retryTimeout`, clears
`isFetching`, and immediately re-enters `fetchWithRetry` (one synchronous
segment). -/
def retryFireStep (s : SchedState) : SchedState :=
  tickStep { s with retryTimers := s.retryTimers - 1, isFetching := false }

/-- Events the JS event loop can deliver to the scheduler. -/
inductive SchedStep : SchedState → SchedState → Prop
  | tick (s : SchedState) : SchedStep s (tickStep s)
  | finish (success : Bool) (s : SchedState) : 1 ≤ s.running → SchedStep s (finishStep success s)
  | retryFire (s : SchedState) : 1 ≤ s.retryTimers → SchedStep s (retryFireStep s)

/-- States reachable from service start. -/
def SchedReachable (s : SchedState) : Prop :=
  Relation.ReflTransGen SchedStep schedInit s

/-- The scheduler invariant: at most one run or retry timer exists at a
time, and `isFetching` is set exactly while one does. -/
def SchedInv (s : SchedState) : Prop :=
  s.running + s.retryTimers ≤ 1 ∧ (s.isFetching = true ↔ s.running + s.retryTimers = 1)

/-! ## Publisher (`lib/price-fetcher.ts`)

External interactions (HTTP fetch, stream write+emit, contract write) are
oracle parameters; the functions return their outcome together with the
trace of external calls they performed.  The JS float price and its
`Math.floor(price * 100)` conversion are abstracted: the fetched value is
carried directly as its integral cent amount (no claim concerns the float
arithmetic). -/

/-- `BTCPriceData` of `lib/price-fetcher.ts` (price held as cents). -/
structure BTCPriceData where
  priceCents : Nat
  timestamp : Nat
  lastUpdated : String

/-- One external side effect of a pipeline run. -/
inductive PipeEffect where
  | httpGet
  | streamWrite
  | contractWrite
deriving DecidableEq

/-- The environment configuration read by `lib/constants.ts` accessors
(empty string = variable not set, as in the source defaults). -/
structure FetcherConfig where
  cmcApiKey : String
  priceSchemaId : String
  publisherAddress : Nat
  contractAddress : String
  privateKey : String
  rpcUrl : String

/-- `fetchBTCPrice`: raises before any HTTP call when `CMC_API_KEY` is
missing; otherwise performs the HTTP GET, whose outcome is the oracle
`httpResult`. -/
def fetchBTCPrice (cfg : FetcherConfig) (httpResult : Except String BTCPriceData) :
    Except String BTCPriceData × List PipeEffect :=
  if cfg.cmcApiKey = "" then (.error ("CMC_API_KEY environment variable is required"), [])
  else (httpResult, [.httpGet])

/-- `publishPriceUpdate`: raises before any write when `PRICE_SCHEMA_ID`
is missing; encodes the record with `encodePriceUpdate` (raising if out of
range); then performs the single `setAndEmitEvents` write+emit call, whose
outcome is the oracle `sdkResult`. -/
def publishPriceUpdate (cfg : FetcherConfig) (d : BTCPriceData)
    (sdkResult : Except String String) : Except String String × List PipeEffect :=
  if cfg.priceSchemaId = "" then
    (.error ("PRICE_SCHEMA_ID not set. Please run deploy-schema.ts first"), [])
  else
    match encodePriceUpdate { price := d.priceCents, timestamp := d.timestamp, updater := cfg.publisherAddress } with
    | none => (.error ("IntegerOutOfRangeError"), [])
    | some _ => (sdkResult, [.streamWrite])

/-- How far the on-chain interaction of `updateContractPrice` got. -/
inductive ContractOutcome where
  | skippedNoBalance
  | preWriteFailure (msg : String)
  | writeOk
  | writeFailed (msg : String)

/-- `updateContractPrice`: skips when configuration or balance is missing;
otherwise attempts the contract write.  Its outer `catch` swallows every
error ("Don't throw" in the source), so the function returns only its
effect trace and can never raise. -/
def updateContractPrice (cfg : FetcherConfig) (outcome : ContractOutcome) : List PipeEffect :=
  if cfg.contractAddress = "" then []
  else if cfg.privateKey = "" || cfg.rpcUrl = "" then []
  else
    match outcome with
    | .skippedNoBalance => []
    | .preWriteFailure _ => []
    | .writeOk => [.contractWrite]
    | .writeFailed _ => [.contractWrite]

/-- `fetchAndPublishPrice`: fetch, publish, then contract update; returns
`true` on success and `false` (retry signal) when fetch or publish raised. -/
def fetchAndPublishPrice (cfg : FetcherConfig) (httpResult : Except String BTCPriceData)
    (sdkResult : Except String String) (contractOutcome : ContractOutcome) :
    Bool × List PipeEffect :=
  match fetchBTCPrice cfg httpResult with
  | (.error _, eff) => (false, eff)
  | (.ok d, eff1) =>
    match publishPriceUpdate cfg d sdkResult with
    | (.error _, eff2) => (false, eff1 ++ eff2)
    | (.ok _, eff2) => (true, eff1 ++ eff2 ++ updateContractPrice cfg contractOutcome)

/-- A sample fetch result (concrete test fixture). -/
def sampleData : BTCPriceData := { priceCents := 100, timestamp := 200, lastUpdated := "t" }

/-- A fully configured environment (concrete test fixture). -/
def cfgOk : FetcherConfig :=
  { cmcApiKey := "k", priceSchemaId := "s", publisherAddress := 5
  , contractAddress := "c", privateKey := "p", rpcUrl := "u" }

/-- An environment missing the CoinMarketCap API key. -/
def cfgNoKey : FetcherConfig :=
  { cmcApiKey := "", priceSchemaId := "s", publisherAddress := 5
  , contractAddress := "", privateKey := "", rpcUrl := "" }

/-- An environment missing the stream schema id. -/
def cfgNoSchema : FetcherConfig :=
  { cmcApiKey := "k", priceSchemaId := "", publisherAddress := 5
  , contractAddress := "", privateKey := "", rpcUrl := "" }

/-! ## Subscriber (`useBTCPrice` hook)

Two views of the same source.  `SubFlowState`/`subStep` model the
asynchronous control flow of the effect: which completions are pending,
whether `isSubscribed` is set, and how many `setState` calls have run
(`updates`), counting those that ran after the cleanup (`updatesAfterStop`).
`BTCPriceState`/`fetchCurrentPriceResolve` model the state content
produced by the initial one-shot read. -/

structure SubFlowState where
  isSubscribed : Bool
  pendingInitReads : Nat
  pendingEventReads : Nat
  updates : Nat
  updatesAfterStop : Nat
deriving DecidableEq

/-- Asynchronous events of the hook's effect. -/
inductive SubEvent where
  | eventNotify
  | eventResolve (nonempty : Bool) (decodeOk : Bool)
  | initResolve
  | subscribeResolve (ok : Bool)
  | stop

/-- One event-loop delivery to the hook, following the source:
`eventNotify` is the `onData` callback firing — it checks `isSubscribed`
and starts the inner read; `eventResolve` is that inner read completing —
the source calls `updateState` with NO `isSubscribed` re-check;
`initResolve` is `fetchCurrentPrice`'s read completing — every branch
(data, empty, error) checks `isSubscribed` before `setState`;
`subscribeResolve` is `subscribe` settling — its error branch checks
`isSubscribed`; `stop` is the effect cleanup (`isSubscribed = false`). -/
def subStep (e : SubEvent) (s : SubFlowState) : SubFlowState :=
  match e with
  | .eventNotify =>
    if s.isSubscribed then { s with pendingEventReads := s.pendingEventReads + 1 } else s
  | .eventResolve nonempty decodeOk =>
    if s.pendingEventReads = 0 then s
    else
      let s := { s with pendingEventReads := s.pendingEventReads - 1 }
      if nonempty && decodeOk then
        let after := if s.isSubscribed then s.updatesAfterStop else s.updatesAfterStop + 1
        { s with updates := s.updates + 1, updatesAfterStop := after }
      else s
  | .initResolve =>
    if s.pendingInitReads = 0 then s
    else
      let s := { s with pendingInitReads := s.pendingInitReads - 1 }
      if s.isSubscribed then { s with updates := s.updates + 1 } else s
  | .subscribeResolve ok =>
    if ok then s
    else if s.isSubscribed then { s with updates := s.updates + 1 } else s
  | .stop => { s with isSubscribed := false }

/-- Run a sequence of deliveries. -/
def subRun (es : List SubEvent) (s : SubFlowState) : SubFlowState :=
  es.foldl (fun s e => subStep e s) s

/-- Effect start: subscribed, with the initial `fetchCurrentPrice` read in
flight. -/
def subInit : SubFlowState :=
  { isSubscribed := true, pendingInitReads := 1, pendingEventReads := 0
  , updates := 0, updatesAfterStop := 0 }

/-- The exposed hook state (`BTCPriceState` in the source).  The float USD
mirror of `priceBigInt` and the wall-clock `lastUpdate` field are not
modelled (floating point / real time; no claim concerns their values). -/
structure BTCPriceState where
  priceBigInt : Option Nat
  timestamp : Option Nat
  updater : Option JSVal
  isLoading : Bool
  error : Option String

/-- `useState` initial value. -/
def btcPriceInit : BTCPriceState :=
  { priceBigInt := none, timestamp := none, updater := none, isLoading := true, error := none }

/-- `updateState`: replaces the whole exposed state with the decoded
record and clears the error. -/
def updateStateFn (r : DecodedRecord) (_s : BTCPriceState) : BTCPriceState :=
  { priceBigInt := some r.price, timestamp := some r.timestamp, updater := some r.updater
  , isLoading := false, error := none }

/-- The continuation of `fetchCurrentPrice` once its read settles with
`res` (a `.error` models the read rejecting; `.ok []` models absent
data).  Gated by `isSubscribed` on every branch. -/
def fetchCurrentPriceResolve (isSubscribed : Bool) (res : Except String (List JSVal))
    (s : BTCPriceState) : BTCPriceState :=
  match res with
  | .error msg => if isSubscribed then { s with isLoading := false, error := some msg } else s
  | .ok data =>
    if isSubscribed = false then s
    else
      match data with
      | [] => { s with isLoading := false, error := some ("No price data available yet") }
      | d :: _ =>
        match decodePriceUpdate d with
        | .ok r => updateStateFn r s
        | .error msg => { s with isLoading := false, error := some msg }

/-! ## Codec lemmas -/

theorem hexCharToNat_natToHexChar (d : Nat) (h : d < 16) :
    hexCharToNat (natToHexChar d) = some d := by
  interval_cases d <;> decide

theorem hexCharsToBytes_bytesToHexChars (bs : List Nat) (h : ∀ b ∈ bs, b < 256) :
    hexCharsToBytes (bytesToHexChars bs) = some bs := by
  induction bs with
  | nil => rfl
  | cons b bs ih =>
    have hb : b < 256 := h b (by simp)
    have h1 : b / 16 < 16 := by omega
    have h2 : b % 16 < 16 := by omega
    have hcons : bytesToHexChars (b :: bs) =
        natToHexChar (b / 16) :: natToHexChar (b % 16) :: bytesToHexChars bs := rfl
    rw [hcons]
    simp only [hexCharsToBytes, hexCharToNat_natToHexChar _ h1, hexCharToNat_natToHexChar _ h2,
      ih (fun x hx => h x (by simp [hx]))]
    have : 16 * (b / 16) + b % 16 = b := by omega
    rw [this]

theorem natToBeBytes_length (w : Nat) : ∀ n, (natToBeBytes w n).length = w := by
  induction w with
  | zero => intro n; rfl
  | succ w ih => intro n; simp [natToBeBytes, ih]

theorem natToBeBytes_lt (w : Nat) : ∀ n, ∀ b ∈ natToBeBytes w n, b < 256 := by
  induction w with
  | zero => intro n b hb; simp [natToBeBytes] at hb
  | succ w ih =>
    intro n b hb
    simp only [natToBeBytes, List.mem_append, List.mem_singleton] at hb
    rcases hb with h | h
    · exact ih _ b h
    · omega

theorem beBytesToNat_natToBeBytes (w : Nat) : ∀ n, beBytesToNat (natToBeBytes w n) = n % 256 ^ w := by
  induction w with
  | zero => intro n; simp [natToBeBytes, beBytesToNat, Nat.mod_one]
  | succ w ih =>
    intro n
    have happ : beBytesToNat (natToBeBytes w (n / 256) ++ [n % 256]) =
        256 * beBytesToNat (natToBeBytes w (n / 256)) + n % 256 := by
      simp [beBytesToNat, List.foldl_append]
    rw [natToBeBytes, happ, ih]
    have h256 : (256 : Nat) ^ (w + 1) = 256 * 256 ^ w := by
      rw [pow_succ, Nat.mul_comm]
    rw [h256]
    set m := n % (256 * 256 ^ w) with hmdef
    have h1 : n / 256 % 256 ^ w = m / 256 := (Nat.mod_mul_right_div_self n 256 (256 ^ w)).symm
    have h2 : n % 256 = m % 256 := (Nat.mod_mod_of_dvd n ⟨256 ^ w, rfl⟩).symm
    rw [h1, h2]
    exact Nat.div_add_mod m 256

theorem take_append_len (l1 l2 : List Nat) : (l1 ++ l2).take l1.length = l1 := by
  induction l1 with
  | nil => rfl
  | cons a l ih => simp [List.take_succ_cons, ih]

theorem drop_append_len (l1 l2 : List Nat) : (l1 ++ l2).drop l1.length = l2 := by
  induction l1 with
  | nil => rfl
  | cons a l ih => simp [ih]

theorem take_append_of_len (l1 l2 : List Nat) (n : Nat) (h : l1.length = n) :
    (l1 ++ l2).take n = l1 := by
  subst h; exact take_append_len l1 l2

theorem drop_append_of_len (l1 l2 : List Nat) (n : Nat) (h : l1.length = n) :
    (l1 ++ l2).drop n = l2 := by
  subst h; exact drop_append_len l1 l2

theorem rawEncodeBytes_lt (r : PriceUpdate) : ∀ b ∈ rawEncodeBytes r, b < 256 := by
  intro b hb
  simp only [rawEncodeBytes, List.mem_append] at hb
  rcases hb with (hb | hb) | hb
  · exact natToBeBytes_lt 32 _ b hb
  · exact natToBeBytes_lt 32 _ b hb
  · exact natToBeBytes_lt 32 _ b hb

theorem rawEncodeBytes_take0 (r : PriceUpdate) :
    (rawEncodeBytes r).take 32 = natToBeBytes 32 r.price := by
  rw [rawEncodeBytes, List.append_assoc]
  exact take_append_of_len _ _ _ (natToBeBytes_length 32 r.price)

theorem rawEncodeBytes_take1 (r : PriceUpdate) :
    ((rawEncodeBytes r).drop 32).take 32 = natToBeBytes 32 r.timestamp := by
  rw [rawEncodeBytes, List.append_assoc]
  rw [drop_append_of_len _ _ _ (natToBeBytes_length 32 r.price)]
  exact take_append_of_len _ _ _ (natToBeBytes_length 32 r.timestamp)

theorem rawEncodeBytes_take2 (r : PriceUpdate) :
    ((rawEncodeBytes r).drop 64).take 32 = natToBeBytes 32 r.updater := by
  rw [rawEncodeBytes]
  have hlen64 : (natToBeBytes 32 r.price ++ natToBeBytes 32 r.timestamp).length = 64 := by
    rw [List.length_append, natToBeBytes_length, natToBeBytes_length]
  rw [drop_append_of_len _ _ _ hlen64]
  exact List.take_of_length_le (by rw [natToBeBytes_length])

theorem decode_hex_of_valid (r : PriceUpdate) (h : validRecord r) :
    decodePriceUpdate (.vstr (rawEncodeHex r)) = .ok (recToDecoded r) := by
  obtain ⟨hp, ht, hu⟩ := h
  have hpow : (256 : Nat) ^ 32 = 2 ^ 256 := by norm_num
  have hhex : hexStrToBytes (rawEncodeHex r) = some (rawEncodeBytes r) := by
    show hexCharsToBytes (bytesToHexChars (rawEncodeBytes r)) = some (rawEncodeBytes r)
    exact hexCharsToBytes_bytesToHexChars _ (rawEncodeBytes_lt r)
  have hlen : (rawEncodeBytes r).length = 96 := by
    simp [rawEncodeBytes, natToBeBytes_length]
  have hdec : decodeHexPriceUpdate (rawEncodeHex r) = .ok (recToDecoded r) := by
    have step : decodeHexPriceUpdate (rawEncodeHex r) =
        (if (rawEncodeBytes r).length < 96 then .error ("AbiDecodingDataSizeTooSmallError")
         else .ok { price := beBytesToNat ((rawEncodeBytes r).take 32)
                  , timestamp := beBytesToNat (((rawEncodeBytes r).drop 32).take 32)
                  , updater := .vstr (addrHexString (beBytesToNat (((rawEncodeBytes r).drop 64).take 32) % 2 ^ 160)) }) := by
      unfold decodeHexPriceUpdate
      rw [hhex]
    rw [step, if_neg (by omega)]
    rw [rawEncodeBytes_take0, rawEncodeBytes_take1, rawEncodeBytes_take2]
    rw [beBytesToNat_natToBeBytes, beBytesToNat_natToBeBytes, beBytesToNat_natToBeBytes]
    have e1 : r.price % 256 ^ 32 = r.price := Nat.mod_eq_of_lt (by rw [hpow]; exact hp)
    have e2 : r.timestamp % 256 ^ 32 = r.timestamp := Nat.mod_eq_of_lt (by
      rw [hpow]; exact lt_trans ht (by norm_num))
    have e3 : r.updater % 256 ^ 32 = r.updater := Nat.mod_eq_of_lt (by
      rw [hpow]; exact lt_trans hu (by norm_num))
    have e4 : r.updater % 2 ^ 160 = r.updater := Nat.mod_eq_of_lt hu
    rw [e1, e2, e3, e4]
    rfl
  have hsw : strStartsWith0x (rawEncodeHex r) = true := rfl
  show decodePriceUpdate (.vstr (rawEncodeHex r)) = .ok (recToDecoded r)
  simp only [decodePriceUpdate, hsw, if_true]
  exact hdec

/-- C1: for every valid PriceRecord (price fitting 256 bits, timestamp
fitting 64 bits, updater a 20-byte address), decoding the bytes produced
by `encodePriceUpdate` with `decodePriceUpdate` returns a record equal to
the original (addresses identified with their 160-bit value). -/
theorem decode_encode_roundtrip (r : PriceUpdate) (h : validRecord r) :
    encodePriceUpdate r = some (rawEncodeHex r) ∧
    decodePriceUpdate (.vstr (rawEncodeHex r)) = .ok (recToDecoded r) := by
  refine ⟨?_, decode_hex_of_valid r h⟩
  simp [encodePriceUpdate, h]

/-- Witness for C1 at a concrete record. -/
theorem decode_encode_roundtrip_witness :
    validRecord { price := 10000000, timestamp := 1700000000, updater := 1234567890 } ∧
    (encodePriceUpdate { price := 10000000, timestamp := 1700000000, updater := 1234567890 } =
        some (rawEncodeHex { price := 10000000, timestamp := 1700000000, updater := 1234567890 }) ∧
      decodePriceUpdate (.vstr (rawEncodeHex { price := 10000000, timestamp := 1700000000, updater := 1234567890 })) =
        .ok (recToDecoded { price := 10000000, timestamp := 1700000000, updater := 1234567890 })) :=
  ⟨by decide, decode_encode_roundtrip _ (by decide)⟩

theorem digitChar_isDigit (d : Nat) (h : d < 10) : (digitChar d).isDigit = true := by
  interval_cases d <;> decide

theorem digitChar_toNat (d : Nat) (h : d < 10) : (digitChar d).toNat - 48 = d := by
  interval_cases d <;> decide

theorem natToDecChars_all_digits (n : Nat) : (natToDecChars n).all Char.isDigit = true := by
  induction n using Nat.strong_induction_on with
  | _ n ih =>
    unfold natToDecChars
    split
    · next h => simp [digitChar_isDigit n h]
    · next h =>
      rw [List.all_append]
      have h10 : n / 10 < n := Nat.div_lt_self (by omega) (by omega)
      simp [ih _ h10, digitChar_isDigit (n % 10) (by omega)]

theorem decimalValue_append_digit (l : List Char) (c : Char) :
    decimalValue (l ++ [c]) = 10 * decimalValue l + (c.toNat - 48) := by
  simp [decimalValue, List.foldl_append]

theorem decimalValue_natToDecChars (n : Nat) : decimalValue (natToDecChars n) = n := by
  induction n using Nat.strong_induction_on with
  | _ n ih =>
    unfold natToDecChars
    split
    · next h =>
      simp [decimalValue, digitChar_toNat n h]
    · next h =>
      rw [decimalValue_append_digit]
      have h10 : n / 10 < n := Nat.div_lt_self (by omega) (by omega)
      rw [ih _ h10, digitChar_toNat (n % 10) (by omega)]
      omega

theorem toBigInt_decStr (n : Nat) : toBigInt (.vstr (decStr n)) = some n := by
  have hl : (decStr n).toList = natToDecChars n := rfl
  simp only [toBigInt, hl, natToDecChars_all_digits, if_true, decimalValue_natToDecChars]

theorem toBigInt_repBig {n : Nat} {v : JSVal} (h : RepBig n v) : toBigInt v = some n := by
  induction h with
  | big => rfl
  | num => rfl
  | str => exact toBigInt_decStr n
  | wrap _ ih => exact ih

theorem extractAddress_repAddr {a : Nat} {v : JSVal} (h : RepAddr a v) :
    extractAddress v = .vstr (addrHexString a) := by
  induction h with
  | str => rfl
  | wrap _ ih => exact ih

/-- C2 counterexample: an input array of length 1 (fewer than 3 elements)
whose first element is the SDK value wrapper decodes successfully, so the
claim that every array with fewer than 3 elements raises `MalformedRecord`
is false on the code. -/
theorem decode_short_array_success_counterexample :
    ([JSVal.vwrap (.varr [.vbig 100, .vbig 200, .vstr ("0xdead")])].length < 3) ∧
    decodePriceUpdate (.varr [.vwrap (.varr [.vbig 100, .vbig 200, .vstr ("0xdead")])]) =
      .ok { price := 100, timestamp := 200, updater := .vstr ("0xdead") } :=
  ⟨by decide, rfl⟩

/-- C2 (amended): `decodePriceUpdate` raises for the empty array, for an
array whose first element is a value wrapper that unwraps to a sequence of
fewer than 3 elements (or to no sequence at all), and for every input that
is neither an array nor a `0x`-prefixed string; the top-level array length
itself is not what is checked (a wrapped 3-element sequence or a hex
string inside a 1-element array decodes fine, see the counterexample). -/
theorem decode_malformed_inputs :
    (decodePriceUpdate (.varr []) = .error ("Unsupported data format")) ∧
    (∀ (w : JSVal) (rest : List JSVal) (vs : List JSVal),
        unwrapToValues (.vwrap w) = some vs → vs.length < 3 →
        decodePriceUpdate (.varr (.vwrap w :: rest)) = .error ("Unsupported data format")) ∧
    (∀ (w : JSVal) (rest : List JSVal),
        unwrapToValues (.vwrap w) = none →
        decodePriceUpdate (.varr (.vwrap w :: rest)) = .error ("Unsupported data format")) ∧
    (∀ (data : JSVal),
        (∀ l, data ≠ .varr l) → (∀ s, data = .vstr s → strStartsWith0x s = false) →
        decodePriceUpdate data = .error ("Unsupported data format")) := by
  refine ⟨rfl, ?_, ?_, ?_⟩
  · intro w rest vs hw hlen
    simp only [decodePriceUpdate, hw]
    rcases vs with _ | ⟨a, _ | ⟨b, _ | ⟨c, t⟩⟩⟩
    · rfl
    · rfl
    · rfl
    · exfalso
      simp only [List.length_cons] at hlen
      omega
  · intro w rest hw
    simp only [decodePriceUpdate, hw]
  · intro data h1 h2
    match data with
    | .vstr s =>
      have := h2 s rfl
      simp only [decodePriceUpdate, this]
      simp
    | .vnum n => rfl
    | .vbig n => rfl
    | .vwrap v => rfl
    | .vother => rfl
    | .varr l => exact absurd rfl (h1 l)

/-- Witness for C2 (amended) at concrete inputs. -/
theorem decode_malformed_inputs_witness :
    unwrapToValues (.vwrap (.varr [.vbig 1])) = some [.vbig 1] ∧
    decodePriceUpdate (.varr [.vwrap (.varr [.vbig 1])]) = .error ("Unsupported data format") ∧
    decodePriceUpdate (.vnum 5) = .error ("Unsupported data format") :=
  ⟨rfl, decode_malformed_inputs.2.1 _ [] [.vbig 1] rfl (by decide),
   decode_malformed_inputs.2.2.2 (.vnum 5) (fun l h => JSVal.noConfusion h)
     (fun s h => JSVal.noConfusion h)⟩

/-- C3 counterexample: when the address leaf is given as a native
big-integer (one of the leaf forms the claim allows for each field), the
decoded record's updater is that big-integer, not the address string the
raw-bytes decode returns — the results are not the same record. -/
theorem decode_wrapped_bigint_address_counterexample :
    decodePriceUpdate (.varr [.vwrap (.varr [.vbig 100, .vbig 200, .vbig 1234567890])]) =
      .ok { price := 100, timestamp := 200, updater := .vbig 1234567890 } ∧
    decodePriceUpdate (.vstr (rawEncodeHex { price := 100, timestamp := 200, updater := 1234567890 })) =
      .ok (recToDecoded { price := 100, timestamp := 200, updater := 1234567890 }) ∧
    JSVal.vbig 1234567890 ≠ (recToDecoded { price := 100, timestamp := 200, updater := 1234567890 }).updater :=
  ⟨rfl, rfl, fun h => JSVal.noConfusion h⟩

/-- C3 (amended): decoding returns the same record for raw encoded bytes
and for the 3-element sequence wrapped one or two levels deep in
`{value: ...}` indirection, with the price and timestamp leaves given as a
native big-integer, a number, a decimal string, or wrapped, and the
address leaf given as the address string, possibly wrapped (numeric leaf
forms for the address field are excluded: they pass through unconverted). -/
theorem decode_wrapped_robustness (r : PriceUpdate) (h : validRecord r)
    (v0 v1 v2 : JSVal) (h0 : RepBig r.price v0) (h1 : RepBig r.timestamp v1)
    (h2 : RepAddr r.updater v2) :
    decodePriceUpdate (.vstr (rawEncodeHex r)) = .ok (recToDecoded r) ∧
    decodePriceUpdate (.varr [.vwrap (.varr [v0, v1, v2])]) = .ok (recToDecoded r) ∧
    decodePriceUpdate (.varr [.vwrap (.vwrap (.varr [v0, v1, v2]))]) = .ok (recToDecoded r) := by
  have hb0 := toBigInt_repBig h0
  have hb1 := toBigInt_repBig h1
  have ha := extractAddress_repAddr h2
  refine ⟨decode_hex_of_valid r h, ?_, ?_⟩
  · simp only [decodePriceUpdate, unwrapToValues, hb0, hb1, ha]
    rfl
  · simp only [decodePriceUpdate, unwrapToValues, hb0, hb1, ha]
    rfl

/-- Witness for C3 (amended) at a concrete record and mixed leaf forms. -/
theorem decode_wrapped_robustness_witness :
    validRecord { price := 100, timestamp := 200, updater := 1234567890 } ∧
    (decodePriceUpdate (.vstr (rawEncodeHex { price := 100, timestamp := 200, updater := 1234567890 })) =
        .ok (recToDecoded { price := 100, timestamp := 200, updater := 1234567890 }) ∧
      decodePriceUpdate (.varr [.vwrap (.varr [.vbig 100, .vstr (decStr 200), .vwrap (.vstr (addrHexString 1234567890))])]) =
        .ok (recToDecoded { price := 100, timestamp := 200, updater := 1234567890 }) ∧
      decodePriceUpdate (.varr [.vwrap (.vwrap (.varr [.vbig 100, .vstr (decStr 200), .vwrap (.vstr (addrHexString 1234567890))]))]) =
        .ok (recToDecoded { price := 100, timestamp := 200, updater := 1234567890 })) :=
  ⟨by decide, decode_wrapped_robustness _ (by decide) _ _ _ RepBig.big RepBig.str
    (RepAddr.wrap RepAddr.str)⟩

/-! ## Scheduler lemmas -/

theorem sched_inv_init : SchedInv schedInit := by
  constructor <;> simp [schedInit]

theorem sched_inv_step (s t : SchedState) (hinv : SchedInv s) (hstep : SchedStep s t) :
    SchedInv t := by
  obtain ⟨hle, hiff⟩ := hinv
  cases hstep with
  | tick s =>
    by_cases hf : s.isFetching
    · simpa [tickStep, hf] using ⟨hle, hiff⟩
    · have h0 : s.running + s.retryTimers = 0 := by
        rcases Nat.lt_or_ge (s.running + s.retryTimers) 1 with h | h
        · omega
        · exact absurd (hiff.mpr (by omega)) hf
      constructor <;> simp [tickStep, hf] <;> omega
  | finish success s hrun =>
    have h1 : s.running = 1 ∧ s.retryTimers = 0 := by omega
    obtain ⟨hr1, hrt0⟩ := h1
    have hf : s.isFetching = true := hiff.mpr (by omega)
    cases success with
    | true => constructor <;> simp [finishStep, hr1, hrt0, hf]
    | false => constructor <;> simp [finishStep, hr1, hrt0, hf]
  | retryFire s hrt =>
    have h1 : s.retryTimers = 1 ∧ s.running = 0 := by omega
    obtain ⟨hrt1, hr0⟩ := h1
    constructor <;> simp [retryFireStep, tickStep, hrt1, hr0]

theorem sched_inv_reachable (s : SchedState) (h : SchedReachable s) : SchedInv s := by
  induction h with
  | refl => exact sched_inv_init
  | tail _ hstep ih => exact sched_inv_step _ _ ih hstep

/-- C4: in every reachable scheduler state at most one pipeline run is in
flight, and a timer tick fired while a run is in progress is a no-op (so
two ticks during a run yield exactly one execution, not two). -/
theorem scheduler_single_flight (s : SchedState) (h : SchedReachable s) :
    s.running ≤ 1 ∧ (1 ≤ s.running → tickStep s = s) := by
  obtain ⟨hle, hiff⟩ := sched_inv_reachable s h
  refine ⟨by omega, fun hr => ?_⟩
  have hf : s.isFetching = true := hiff.mpr (by omega)
  simp [tickStep, hf]

/-- Witness for C4 at the reachable state after the first tick. -/
theorem scheduler_single_flight_witness :
    SchedState.running { isFetching := true, retryTimers := 0, running := 1, started := 1 } ≤ 1 ∧
    (1 ≤ SchedState.running { isFetching := true, retryTimers := 0, running := 1, started := 1 } →
      tickStep { isFetching := true, retryTimers := 0, running := 1, started := 1 } =
        { isFetching := true, retryTimers := 0, running := 1, started := 1 }) :=
  scheduler_single_flight _ (Relation.ReflTransGen.single (SchedStep.tick schedInit))

/-- C5: in every reachable scheduler state at most one retry timer is
pending, and a run failing in a reachable state arms exactly one retry. -/
theorem scheduler_retry_bound (s : SchedState) (h : SchedReachable s) :
    s.retryTimers ≤ 1 ∧ (1 ≤ s.running → (finishStep false s).retryTimers = 1) := by
  obtain ⟨hle, hiff⟩ := sched_inv_reachable s h
  refine ⟨by omega, fun hr => ?_⟩
  have hrt : s.retryTimers = 0 := by omega
  simp [finishStep, hrt]

/-- Witness for C5 at the reachable state after the first tick. -/
theorem scheduler_retry_bound_witness :
    SchedState.retryTimers { isFetching := true, retryTimers := 0, running := 1, started := 1 } ≤ 1 ∧
    (1 ≤ SchedState.running { isFetching := true, retryTimers := 0, running := 1, started := 1 } →
      (finishStep false { isFetching := true, retryTimers := 0, running := 1, started := 1 }).retryTimers = 1) :=
  scheduler_retry_bound _ (Relation.ReflTransGen.single (SchedStep.tick schedInit))

/-! ## Publisher and subscriber theorems -/

/-- C6: the code violates post-stop silence.  A price-update notification
received before `stop()` passes the `isSubscribed` gate and starts the
inner read; the source performs NO `isSubscribed` re-check when that read
resolves, so a `setState` runs after `stop()` (`updatesAfterStop = 1`).
By contrast the initial read and the subscription-setup error path are
gated, so the claim's mechanism exists everywhere except this callback. -/
theorem subscriber_update_after_stop :
    (subRun [.eventNotify, .stop, .eventResolve true true] subInit).updatesAfterStop = 1 ∧
    (subRun [.eventNotify, .stop, .eventResolve true true] subInit).updates = 1 ∧
    (subRun [.eventNotify, .stop, .eventResolve true true] subInit).isSubscribed = false ∧
    (subRun [.stop, .initResolve] subInit).updates = 0 ∧
    (subRun [.stop, .subscribeResolve false] subInit).updates = 0 := by
  decide

theorem updateContractPrice_no_streamWrite (cfg : FetcherConfig) (outcome : ContractOutcome) :
    (updateContractPrice cfg outcome).count PipeEffect.streamWrite = 0 := by
  unfold updateContractPrice
  split_ifs <;> first | rfl | (cases outcome <;> rfl)

/-- C7: `publishPriceUpdate` performs at most one stream write per call
(none when configuration or encoding fails before the call), a successful
publish performs exactly the single atomic write+emit, and a successful
fetch+publish cycle contains exactly one stream write (the contract update
is a distinct effect and `publish` itself never retries). -/
theorem publish_single_write (cfg : FetcherConfig) (d : BTCPriceData)
    (sdkResult : Except String String) :
    ((publishPriceUpdate cfg d sdkResult).2.count PipeEffect.streamWrite ≤ 1) ∧
    (∀ tx, (publishPriceUpdate cfg d sdkResult).1 = .ok tx →
      (publishPriceUpdate cfg d sdkResult).2 = [PipeEffect.streamWrite]) ∧
    (∀ (httpResult : Except String BTCPriceData) (outcome : ContractOutcome),
      (fetchAndPublishPrice cfg httpResult sdkResult outcome).1 = true →
      (fetchAndPublishPrice cfg httpResult sdkResult outcome).2.count PipeEffect.streamWrite = 1) := by
  refine ⟨?_, ?_, ?_⟩
  · by_cases hs : cfg.priceSchemaId = ""
    · simp [publishPriceUpdate, hs]
    · cases henc : encodePriceUpdate { price := d.priceCents, timestamp := d.timestamp, updater := cfg.publisherAddress } with
      | none => simp [publishPriceUpdate, hs, henc]
      | some enc => simp [publishPriceUpdate, hs, henc, List.count_singleton]
  · intro tx htx
    by_cases hs : cfg.priceSchemaId = ""
    · simp [publishPriceUpdate, hs] at htx
    · cases henc : encodePriceUpdate { price := d.priceCents, timestamp := d.timestamp, updater := cfg.publisherAddress } with
      | none => simp [publishPriceUpdate, hs, henc] at htx
      | some enc => simp [publishPriceUpdate, hs, henc]
  · intro httpResult outcome hsucc
    by_cases hk : cfg.cmcApiKey = ""
    · have hf : fetchBTCPrice cfg httpResult =
          (.error ("CMC_API_KEY environment variable is required"), []) := by
        simp [fetchBTCPrice, hk]
      simp only [fetchAndPublishPrice, hf] at hsucc
      simp at hsucc
    · have hf : fetchBTCPrice cfg httpResult = (httpResult, [PipeEffect.httpGet]) := by
        simp [fetchBTCPrice, hk]
      cases httpResult with
      | error e =>
        simp only [fetchAndPublishPrice, hf] at hsucc
        simp at hsucc
      | ok d' =>
        by_cases hs : cfg.priceSchemaId = ""
        · have hp : publishPriceUpdate cfg d' sdkResult =
              (.error ("PRICE_SCHEMA_ID not set. Please run deploy-schema.ts first"), []) := by
            simp [publishPriceUpdate, hs]
          simp only [fetchAndPublishPrice, hf, hp] at hsucc
          simp at hsucc
        · cases henc : encodePriceUpdate { price := d'.priceCents, timestamp := d'.timestamp, updater := cfg.publisherAddress } with
          | none =>
            have hp : publishPriceUpdate cfg d' sdkResult = (.error ("IntegerOutOfRangeError"), []) := by
              simp [publishPriceUpdate, hs, henc]
            simp only [fetchAndPublishPrice, hf, hp] at hsucc
            simp at hsucc
          | some enc =>
            have hp : publishPriceUpdate cfg d' sdkResult = (sdkResult, [PipeEffect.streamWrite]) := by
              simp [publishPriceUpdate, hs, henc]
            cases sdkResult with
            | error e =>
              simp only [fetchAndPublishPrice, hf, hp] at hsucc
              simp at hsucc
            | ok tx =>
              simp only [fetchAndPublishPrice, hf, hp]
              have c1 : List.count PipeEffect.streamWrite [PipeEffect.httpGet] = 0 := rfl
              have c2 : List.count PipeEffect.streamWrite [PipeEffect.streamWrite] = 1 := rfl
              simp [List.count_append, c1, c2, updateContractPrice_no_streamWrite]

/-- Witness for C7 at a concrete configuration. -/
theorem publish_single_write_witness :
    ((publishPriceUpdate cfgOk sampleData (.ok "tx")).2.count PipeEffect.streamWrite ≤ 1) ∧
    (∀ tx, (publishPriceUpdate cfgOk sampleData (.ok "tx")).1 = .ok tx →
      (publishPriceUpdate cfgOk sampleData (.ok "tx")).2 = [PipeEffect.streamWrite]) ∧
    (∀ (httpResult : Except String BTCPriceData) (outcome : ContractOutcome),
      (fetchAndPublishPrice cfgOk httpResult (.ok "tx") outcome).1 = true →
      (fetchAndPublishPrice cfgOk httpResult (.ok "tx") outcome).2.count PipeEffect.streamWrite = 1) :=
  publish_single_write cfgOk sampleData (.ok "tx")

/-- C8 counterexample: when the one-shot read succeeds with no data, the
hook sets the `error` field (to the message below), so the exposed state is
an error-state representation, not an error-free "unavailable" state. -/
theorem fetch_empty_sets_error_counterexample :
    (fetchCurrentPriceResolve true (.ok []) btcPriceInit).error = some ("No price data available yet") ∧
    (fetchCurrentPriceResolve true (.ok []) btcPriceInit).error ≠ none ∧
    (fetchCurrentPriceResolve true (.ok []) btcPriceInit).isLoading = false := by
  refine ⟨rfl, by simp [fetchCurrentPriceResolve], rfl⟩

/-- C8 (amended): the empty-read path clears `isLoading` and sets the
`error` field to the fixed message, leaving price data unchanged. -/
theorem fetch_empty_state (s : BTCPriceState) :
    fetchCurrentPriceResolve true (.ok []) s =
      { s with isLoading := false, error := some ("No price data available yet") } := rfl

/-- C10: `fetchAndPublishPrice` returns `true` whenever fetch and stream
publish succeed, for every contract-update outcome including a failed
write (`updateContractPrice` swallows all errors), and a `true` result
never arms a retry in the scheduler. -/
theorem fetchAndPublish_ignores_contract_failure (cfg : FetcherConfig)
    (httpResult : Except String BTCPriceData) (sdkResult : Except String String)
    (outcome : ContractOutcome) (d : BTCPriceData) (tx : String)
    (hf : (fetchBTCPrice cfg httpResult).1 = .ok d)
    (hp : (publishPriceUpdate cfg d sdkResult).1 = .ok tx) :
    (fetchAndPublishPrice cfg httpResult sdkResult outcome).1 = true ∧
    (∀ s : SchedState,
      (finishStep (fetchAndPublishPrice cfg httpResult sdkResult outcome).1 s).retryTimers = s.retryTimers) := by
  obtain ⟨e1, he1⟩ : ∃ e, fetchBTCPrice cfg httpResult = (.ok d, e) := ⟨_, by rw [← hf]⟩
  obtain ⟨e2, he2⟩ : ∃ e, publishPriceUpdate cfg d sdkResult = (.ok tx, e) := ⟨_, by rw [← hp]⟩
  have hres : (fetchAndPublishPrice cfg httpResult sdkResult outcome).1 = true := by
    simp only [fetchAndPublishPrice, he1, he2]
  refine ⟨hres, fun s => ?_⟩
  rw [hres]
  simp [finishStep]

/-- Witness for C10 with a failing contract write. -/
theorem fetchAndPublish_ignores_contract_failure_witness :
    ((fetchBTCPrice cfgOk (.ok sampleData)).1 = .ok sampleData) ∧
    ((publishPriceUpdate cfgOk sampleData (.ok "tx")).1 = .ok "tx") ∧
    ((fetchAndPublishPrice cfgOk (.ok sampleData) (.ok "tx") (.writeFailed "boom")).1 = true) :=
  ⟨rfl, rfl,
   (fetchAndPublish_ignores_contract_failure cfgOk (.ok sampleData) (.ok "tx")
     (.writeFailed "boom") sampleData "tx" rfl rfl).1⟩

/-- C9 counterexample: with the API key missing, every run fails without
any external call, yet the scheduler still starts a run and arms a retry —
the reachable state below has `started = 1` and `retryTimers = 1` — so
missing configuration is not detected eagerly and the scheduler does not
refuse to run. -/
theorem scheduler_runs_without_config_counterexample :
    fetchAndPublishPrice cfgNoKey (.ok sampleData) (.ok "tx") .writeOk = (false, []) ∧
    SchedReachable { isFetching := true, retryTimers := 1, running := 0, started := 1 } := by
  constructor
  · rfl
  · have h1 : SchedStep schedInit (tickStep schedInit) := SchedStep.tick schedInit
    have h2 : SchedStep (tickStep schedInit) (finishStep false (tickStep schedInit)) :=
      SchedStep.finish false _ (by decide)
    exact Relation.ReflTransGen.tail (Relation.ReflTransGen.single h1) h2

/-- C9 (amended): a missing API key or schema id makes each pipeline run
fail at its start, before any external call of that run; the scheduler
performs no eager check and keeps running, arming a retry after each
failed run. -/
theorem config_checked_per_run (cfg : FetcherConfig) :
    (cfg.cmcApiKey = "" → ∀ httpResult, fetchBTCPrice cfg httpResult =
        (.error ("CMC_API_KEY environment variable is required"), [])) ∧
    (cfg.priceSchemaId = "" → ∀ d sdkResult, publishPriceUpdate cfg d sdkResult =
        (.error ("PRICE_SCHEMA_ID not set. Please run deploy-schema.ts first"), [])) ∧
    (cfg.cmcApiKey = "" → ∀ httpResult sdkResult outcome,
        fetchAndPublishPrice cfg httpResult sdkResult outcome = (false, []) ∧
        (∀ s : SchedState, 1 ≤ s.running → s.retryTimers = 0 →
          (finishStep (fetchAndPublishPrice cfg httpResult sdkResult outcome).1 s).retryTimers = 1)) := by
  refine ⟨?_, ?_, ?_⟩
  · intro hk httpResult
    simp [fetchBTCPrice, hk]
  · intro hs d sdkResult
    simp [publishPriceUpdate, hs]
  · intro hk httpResult sdkResult outcome
    have hf : fetchBTCPrice cfg httpResult =
        (.error ("CMC_API_KEY environment variable is required"), []) := by
      simp [fetchBTCPrice, hk]
    have hres : fetchAndPublishPrice cfg httpResult sdkResult outcome = (false, []) := by
      simp only [fetchAndPublishPrice, hf]
    refine ⟨hres, fun s hr hrt => ?_⟩
    rw [hres]
    simp [finishStep, hrt]

/-- Witness for C9 (amended) at concrete configurations. -/
theorem config_checked_per_run_witness :
    fetchBTCPrice cfgNoKey (.ok sampleData) =
      (.error ("CMC_API_KEY environment variable is required"), []) ∧
    publishPriceUpdate cfgNoSchema sampleData (.ok "tx") =
      (.error ("PRICE_SCHEMA_ID not set. Please run deploy-schema.ts first"), []) ∧
    fetchAndPublishPrice cfgNoKey (.ok sampleData) (.ok "tx") .writeOk = (false, []) :=
  ⟨(config_checked_per_run cfgNoKey).1 rfl _, (config_checked_per_run cfgNoSchema).2.1 rfl _ _,
   ((config_checked_per_run cfgNoKey).2.2 rfl _ _ _).1⟩

end PriceTracker
